import Mathlib

/-
Verification development for the gpandas repository: a shallow embedding of
its table data model (dataframe.DataFrame), the generic set algebra
(utils/collection/set.go), the column-renaming operation (DataFrame.Rename),
the hash-join engine (DataFrame.Merge and the four performXMerge helpers),
the validating constructor (gpandas.DataFrame) and the chunk-splitting loop
of the concurrent CSV ingestion (Read_csv), together with theorems settling
the frozen claims about them.

Modelling conventions:
  - Go `any` cell values are embedded as the inductive type `Val`; distinct
    constructors model distinct Go dynamic types, so `Val` equality models
    Go interface equality (two interface values are equal iff they have the
    same dynamic type and equal payloads).  float64 payloads are carried as
    raw bit patterns (a Nat); none of the embedded code performs arithmetic
    on them.  The IEEE peculiarities of Go's == on float64 (NaN ≠ NaN,
    +0 == -0) are outside this embedding.
  - Go maps used as sets (collection.Set[T] = map[T]struct{}) are embedded
    as duplicate-free lists in insertion order; Go map iteration order is
    unspecified, and every property proved below about the set operations is
    insensitive to that order.
  - Go's (value, error) return pairs become Except / Option results;
    a nil pointer becomes `Option.none`.
-/

namespace GPandas

/-- A Go `any` value stored in a DataFrame cell: nil, an int64, a float64
(carried as its bit pattern), a string, a bool, or one of the one-element
typed column slices (FloatColumn, IntColumn, StringColumn, BoolColumn) that
the gpandas constructor wraps cells in. -/
inductive Val where
  | vnull : Val
  | vint : Int → Val
  | vfloat : Nat → Val
  | vstr : String → Val
  | vbool : Bool → Val
  | vFloatCol : List Nat → Val
  | vIntCol : List Int → Val
  | vStrCol : List String → Val
  | vBoolCol : List Bool → Val
deriving DecidableEq, Repr

/-- The dataframe.DataFrame struct: ordered column names and cell storage.
The sync.Mutex field carries no data and is omitted. -/
structure DataFrame where
  Columns : List String
  Data : List (List Val)
deriving DecidableEq, Repr

namespace collection

variable {T : Type} [DecidableEq T]

/-- Set.Has: membership test (map lookup). -/
def Has (s : List T) (v : T) : Bool :=
  decide (v ∈ s)

/-- Set.Add: inserts v unless already present; the Go method mutates the
receiver and returns an error value, modelled as the (new set, error) pair. -/
def Add (s : List T) (v : T) : List T × Option String :=
  if Has s v then (s, some "value already exists in the set")
  else (s ++ [v], none)

/-- The state change of Set.Add with the returned error discarded, as in
GetMapKeys where `keys.Add(k)` ignores the result. -/
def addD (s : List T) (v : T) : List T :=
  (Add s v).1

/-- Set.Union: insert every element of s, then every element of s2, into a
fresh set. -/
def Union (s s2 : List T) : List T :=
  s2.foldl addD (s.foldl addD [])

/-- collection.ToSlice: the set's elements as a slice (the embedding keeps
the insertion order; Go iterates the map in unspecified order). -/
def ToSlice (s : List T) : List T :=
  s

/-- collection.ToSet: inserts every slice element into a fresh set,
deduplicating. -/
def ToSet (slice : List T) : List T :=
  slice.foldl addD []

/-- Set.Intersect: the elements of s that are present in s2. -/
def Intersect (s s2 : List T) : List T :=
  s.filter (fun v => decide (v ∈ s2))

/-- Set.Difference: the elements of s that are not present in s2. -/
def Difference (s s2 : List T) : List T :=
  s.filter (fun v => !decide (v ∈ s2))

/-- Set.Compare: sizes first (unequal sizes give (false, nil)), then the
first element of s missing from s2, if any. -/
def Compare (s s2 : List T) : Bool × Option T :=
  if s.length ≠ s2.length then (false, none)
  else
    match s.find? (fun v => !decide (v ∈ s2)) with
    | some v => (false, some v)
    | none => (true, none)

theorem mem_addD {s : List T} {v w : T} : w ∈ addD s v ↔ w ∈ s ∨ w = v := by
  unfold addD Add Has
  split
  · rename_i h
    simp only [decide_eq_true_eq] at h
    constructor
    · exact fun hw => Or.inl hw
    · rintro (hw | rfl) <;> [exact hw; exact h]
  · simp [List.mem_append]

theorem nodup_addD {s : List T} (h : s.Nodup) (v : T) : (addD s v).Nodup := by
  unfold addD Add Has
  split
  · exact h
  · rename_i hm
    simp only [decide_eq_true_eq] at hm
    simp [List.nodup_append, h, hm]

theorem mem_foldl_addD (l : List T) :
    ∀ (s : List T) (w : T), w ∈ l.foldl addD s ↔ w ∈ s ∨ w ∈ l := by
  induction l with
  | nil => intro s w; simp
  | cons x xs ih =>
    intro s w
    simp only [List.foldl_cons, ih, mem_addD, List.mem_cons]
    tauto

theorem nodup_foldl_addD (l : List T) :
    ∀ (s : List T), s.Nodup → (l.foldl addD s).Nodup := by
  induction l with
  | nil => intro s h; exact h
  | cons x xs ih => intro s h; exact ih _ (nodup_addD h x)

theorem mem_ToSet {l : List T} {w : T} : w ∈ ToSet l ↔ w ∈ l := by
  unfold ToSet
  simp [mem_foldl_addD]

theorem nodup_ToSet (l : List T) : (ToSet l).Nodup :=
  nodup_foldl_addD l [] List.nodup_nil

theorem mem_Union {s s2 : List T} {w : T} : w ∈ Union s s2 ↔ w ∈ s ∨ w ∈ s2 := by
  unfold Union
  rw [mem_foldl_addD, mem_foldl_addD]
  simp [or_comm]

theorem nodup_Union (s s2 : List T) : (Union s s2).Nodup :=
  nodup_foldl_addD s2 _ (nodup_foldl_addD s [] List.nodup_nil)

/-- Two duplicate-free sets with the same members compare equal: the sizes
agree and no element of the first is missing from the second. -/
theorem Compare_eq_true {s s2 : List T} (hs : s.Nodup) (hs2 : s2.Nodup)
    (hm : ∀ v, v ∈ s ↔ v ∈ s2) : Compare s s2 = (true, none) := by
  have hlen : s.length = s2.length := by
    have : s.toFinset = s2.toFinset := by
      ext v; simp [List.mem_toFinset, hm v]
    calc s.length = s.toFinset.card := (List.toFinset_card_of_nodup hs).symm
      _ = s2.toFinset.card := by rw [this]
      _ = s2.length := List.toFinset_card_of_nodup hs2
  unfold Compare
  rw [if_neg (by omega)]
  have hnone : s.find? (fun v => !decide (v ∈ s2)) = none := by
    rw [List.find?_eq_none]
    intro x hx
    simp [(hm x).mp hx]
  rw [hnone]

end collection

/-- GetMapKeys: collects a Go map's keys into a set, iterating the entry
list; `keys.Add(k)` discards the duplicate error, so this deduplicates in
iteration order (Go map entries have unique keys anyway). -/
def GetMapKeys (m : List (String × String)) : List String :=
  (m.map Prod.fst).foldl collection.addD []

/-- The body of the Rename mutation loop for one (old, new) entry: every
column entry equal to the old name is rewritten to the new name. -/
def renamePair (cols : List String) (kv : String × String) : List String :=
  cols.map (fun c => if c = kv.1 then kv.2 else c)

/-- The Rename mutation loop over all map entries.  Go iterates the rename
map in unspecified order; the embedding applies the entries in entry-list
order (one admissible Go iteration order). -/
def applyRename (cols : List String) (m : List (String × String)) : List String :=
  m.foldl renamePair cols

/-- DataFrame.Rename: empty-map check, key-set versus column-set validation
via Intersect and Compare, then the in-place rewrite.  The Go method mutates
the receiver only after full validation and returns an error before the
mutation loop otherwise, so the embedding returns the mutated frame in ok
and the untouched receiver is kept on error (see renameRun). -/
def Rename (df : DataFrame) (columns : List (String × String)) : Except String DataFrame :=
  if columns.length = 0 then
    .error "'columns' slice is empty. Slice of Maps to declare columns to rename is required"
  else
    match collection.Compare (GetMapKeys columns)
      (collection.Intersect (GetMapKeys columns) (collection.ToSet df.Columns)) with
    | (false, some v) =>
      .error ("the column '" ++ v ++ "' is not present in DataFrame. Specify correct values as keys in columns map")
    | (false, none) =>
      .error "the columns specified in 'columns' parameter is not present in the the DataFrame"
    | (true, _) => .ok ⟨applyRename df.Columns columns, df.Data⟩

/-- The observable effect of the Go call df.Rename(columns) on the receiver:
the mutated frame on success, the untouched frame on error. -/
def renameRun (df : DataFrame) (columns : List (String × String)) : DataFrame :=
  match Rename df columns with
  | .ok df2 => df2
  | .error _ => df

/-- MergeHow constant "inner". -/
def InnerMerge : String := "inner"

/-- MergeHow constant "left". -/
def LeftMerge : String := "left"

/-- MergeHow constant "right". -/
def RightMerge : String := "right"

/-- MergeHow constant "full". -/
def FullMerge : String := "full"

/-- The join-column search loop in Merge: the index of the first column
equal to onCol (Go keeps -1 when absent, modelled as none). -/
def findColIdx : List String → String → Option Nat
  | [], _ => none
  | c :: cs, onCol => if c = onCol then some 0 else (findColIdx cs onCol).map (· + 1)

/-- The rows of `rows` whose join-key cell equals `key`, in row order.  The
Go code builds a hash index from key to row positions (insertion order = row
order) and indexes the rows back, which yields exactly this filtered row
sequence; the lookup `matches, ok := m[key]` has ok = true iff the sequence
is non-empty.  Cells are read with getD; in a well-formed frame every row is
long enough for the join index. -/
def matchesOf (rows : List (List Val)) (idx : Nat) (key : Val) : List (List Val) :=
  rows.filter (fun r => decide (r.getD idx Val.vnull = key))

/-- performInnerMerge: for each left row in order, one output row per right
match — the left row's fields followed by the right row's fields with the
join column dropped. -/
def performInnerMerge (d1 d2 : List (List Val)) (i1 i2 : Nat) : List (List Val) :=
  d1.flatMap (fun row1 =>
    (matchesOf d2 i2 (row1.getD i1 Val.vnull)).map (fun row2 => row1 ++ row2.eraseIdx i2))

/-- performLeftMerge: as inner, but an unmatched left row still emits once,
right-side fields filled with len(df2.Columns)-1 nils. -/
def performLeftMerge (d1 d2 : List (List Val)) (i1 i2 : Nat) (c2len : Nat) : List (List Val) :=
  d1.flatMap (fun row1 =>
    let ms := matchesOf d2 i2 (row1.getD i1 Val.vnull)
    if ms.isEmpty then [row1 ++ List.replicate (c2len - 1) Val.vnull]
    else ms.map (fun row2 => row1 ++ row2.eraseIdx i2))

/-- performRightMerge: iterates right rows; matched rows draw fields from the
left; an unmatched right row emits len(df1.Columns) nils followed by its own
fields with the join column dropped. -/
def performRightMerge (d1 d2 : List (List Val)) (i1 i2 : Nat) (c1len : Nat) : List (List Val) :=
  d2.flatMap (fun row2 =>
    let ms := matchesOf d1 i1 (row2.getD i2 Val.vnull)
    if ms.isEmpty then [List.replicate c1len Val.vnull ++ row2.eraseIdx i2]
    else ms.map (fun row1 => row1 ++ row2.eraseIdx i2))

/-- performFullMerge: the left-merge rows, then every right row whose
join-key value occurs in no left row (the processedKeys set holds all left
keys), emitted with len(df1.Columns) nils in front. -/
def performFullMerge (d1 d2 : List (List Val)) (i1 i2 : Nat) (c1len c2len : Nat) : List (List Val) :=
  performLeftMerge d1 d2 i1 i2 c2len ++
    (d2.filter (fun row2 =>
      !(d1.any (fun r => decide (r.getD i1 Val.vnull = row2.getD i2 Val.vnull))))).map
      (fun row2 => List.replicate c1len Val.vnull ++ row2.eraseIdx i2)

/-- The output column order of Merge: all left columns, then the right
columns except the join column. -/
def mergeColumns (c1 c2 : List String) (onCol : String) : List String :=
  c1 ++ c2.filter (fun c => decide (c ≠ onCol))

/-- DataFrame.Merge: nil checks, join-column validation in both frames, then
dispatch on the merge type; the default switch case reports the invalid
merge type.  Returns the Go (result, error) pair; every error site in the
source returns a nil frame. -/
def Merge (df other : Option DataFrame) (onCol : String) (how : String) :
    Option DataFrame × Option String :=
  match df, other with
  | some df, some other =>
    match findColIdx df.Columns onCol, findColIdx other.Columns onCol with
    | some i1, some i2 =>
      let resultColumns := mergeColumns df.Columns other.Columns onCol
      if how = InnerMerge then
        (some ⟨resultColumns, performInnerMerge df.Data other.Data i1 i2⟩, none)
      else if how = LeftMerge then
        (some ⟨resultColumns, performLeftMerge df.Data other.Data i1 i2 other.Columns.length⟩, none)
      else if how = RightMerge then
        (some ⟨resultColumns, performRightMerge df.Data other.Data i1 i2 df.Columns.length⟩, none)
      else if how = FullMerge then
        (some ⟨resultColumns,
          performFullMerge df.Data other.Data i1 i2 df.Columns.length other.Columns.length⟩, none)
      else
        (none, some ("invalid merge type: " ++ how))
    | _, _ => (none, some ("column '" ++ onCol ++ "' not found in both DataFrames"))
  | _, _ => (none, some "both DataFrames must be non-nil")

/-- The call df.Merge(other, on, how) in state-passing form: the pre-state is
the pair of (possibly nil) input frames and the result is the Go return
pair.  The method body reads df.Columns, df.Data, other.Columns and
other.Data and writes only freshly allocated locals (df2Map, resultColumns,
resultData and each newRow, populated via append copies), never through df
or other, so the post-call state of the two frames is the pre-call state. -/
def MergeCall (s : Option DataFrame × Option DataFrame) (onCol : String) (how : String) :
    (Option DataFrame × Option DataFrame) × (Option DataFrame × Option String) :=
  (s, Merge s.1 s.2 onCol how)

/-- The number of rows of `rows` whose join-key cell equals `key`. -/
def matchCount (rows : List (List Val)) (idx : Nat) (key : Val) : Nat :=
  (rows.filter (fun r => decide (r.getD idx Val.vnull = key))).length

/-- Spec-side inner-join row count: the sum over left rows of the number of
right rows sharing that row's join key. -/
def innerCount (d1 d2 : List (List Val)) (i1 i2 : Nat) : Nat :=
  (d1.map (fun r1 => matchCount d2 i2 (r1.getD i1 Val.vnull))).sum

/-- Spec-side count of left rows with no right match. -/
def unmatchedLeftCount (d1 d2 : List (List Val)) (i1 i2 : Nat) : Nat :=
  (d1.filter (fun r1 => decide (matchCount d2 i2 (r1.getD i1 Val.vnull) = 0))).length

/-- Spec-side count of right rows with no left match; a right row has no
left match exactly when its join-key value occurs nowhere in the left join
column. -/
def unmatchedRightCount (d1 d2 : List (List Val)) (i1 i2 : Nat) : Nat :=
  (d2.filter (fun r2 => decide (matchCount d1 i1 (r2.getD i2 Val.vnull) = 0))).length

/-- The row count of a Merge result frame, when one was returned. -/
def resultRowCount (p : Option DataFrame × Option String) : Option Nat :=
  p.1.map (fun d => d.Data.length)

/-- The dynamic type of a columns_types map value, as the constructor's type
switch sees it: one of the four recognized column types, or anything else
(the switch default). -/
inductive TypeTag where
  | floatTag : TypeTag
  | intTag : TypeTag
  | stringTag : TypeTag
  | boolTag : TypeTag
  | otherTag : TypeTag
deriving DecidableEq, Repr

/-- The Go %T rendering of a cell value's dynamic type, used in the
constructor's per-cell mismatch messages. -/
def typeName : Val → String
  | .vnull => "<nil>"
  | .vint _ => "int64"
  | .vfloat _ => "float64"
  | .vstr _ => "string"
  | .vbool _ => "bool"
  | .vFloatCol _ => "gpandas.FloatColumn"
  | .vIntCol _ => "gpandas.IntColumn"
  | .vStrCol _ => "gpandas.StringColumn"
  | .vBoolCol _ => "gpandas.BoolColumn"

/-- One arm of the constructor's per-cell type switch: a recognized column
type asserts the scalar's dynamic type and wraps it in a one-element typed
slice; any other declared type stores the value unchanged (the switch
default, the pass-through escape hatch). -/
def convertCell (tag : TypeTag) (colName : String) (v : Val) : Except String Val :=
  match tag with
  | .floatTag =>
    match v with
    | .vfloat b => .ok (.vFloatCol [b])
    | _ => .error ("type mismatch for column " ++ colName ++ ": expected FloatColumn, got " ++ typeName v)
  | .intTag =>
    match v with
    | .vint n => .ok (.vIntCol [n])
    | _ => .error ("type mismatch for column " ++ colName ++ ": expected IntColumn, got " ++ typeName v)
  | .stringTag =>
    match v with
    | .vstr s => .ok (.vStrCol [s])
    | _ => .error ("type mismatch for column " ++ colName ++ ": expected StringColumn, got " ++ typeName v)
  | .boolTag =>
    match v with
    | .vbool b => .ok (.vBoolCol [b])
    | _ => .error ("type mismatch for column " ++ colName ++ ": expected BoolColumn, got " ++ typeName v)
  | .otherTag => .ok v

/-- The constructor's inner cell loop over one column: converts each cell in
order, aborting at the first mismatch. -/
def convertColumn (tag : TypeTag) (colName : String) : List Val → Except String (List Val)
  | [] => .ok []
  | v :: vs =>
    match convertCell tag colName v with
    | .error e => .error e
    | .ok w =>
      match convertColumn tag colName vs with
      | .error e => .error e
      | .ok ws => .ok (w :: ws)

/-- The constructor's column-length validation loop: the first column whose
length differs from the first column's length produces the error naming it
and both lengths. -/
def checkLengths (cols : List String) (data : List (List Val)) (rowCount : Nat) : Option String :=
  match cols, data with
  | c :: cs, col :: ds =>
    if col.length ≠ rowCount then
      some ("inconsistent row count in column " ++ c ++ ": expected " ++
        toString rowCount ++ ", got " ++ toString col.length)
    else checkLengths cs ds rowCount
  | _, _ => none

/-- The constructor's column-type coverage loop: the first column name
missing from columns_types produces the error naming it. -/
def checkTypes (cols : List String) (cts : List (String × TypeTag)) : Option String :=
  match cols with
  | [] => none
  | c :: cs =>
    match cts.lookup c with
    | some _ => checkTypes cs cts
    | none => some ("missing type definition for column: " ++ c)

/-- The constructor's conversion loop over all columns in order.  A column
name absent from columns_types would see a nil map value and fall into the
switch default (pass-through); after checkTypes that branch is unreachable. -/
def convertAll : List String → List (List Val) → List (String × TypeTag) →
    Except String (List (List Val))
  | c :: cs, col :: ds, cts =>
    match (match cts.lookup c with
           | some tag => convertColumn tag c col
           | none => .ok col : Except String (List Val)) with
    | .error e => .error e
    | .ok col2 =>
      match convertAll cs ds cts with
      | .error e => .error e
      | .ok rest => .ok (col2 :: rest)
  | _, _, _ => .ok []

/-- The gpandas constructor method (GoPandas).DataFrame: input validation in
source order (nil type map, empty names, empty data, name/data count,
column lengths against the first column, type coverage), then the per-cell
conversion; columns_types = none models a nil Go map. -/
def DataFrameCtor (columns : List String) (data : List (List Val))
    (columns_types : Option (List (String × TypeTag))) : Except String DataFrame :=
  match columns_types with
  | none => .error "columns_types map is required to assert column types"
  | some cts =>
    if columns.length = 0 then .error "at least one column name is required"
    else if data.length = 0 then .error "data cannot be empty"
    else if columns.length ≠ data.length then
      .error "number of columns must match number of data columns"
    else
      let rowCount := (data.headD []).length
      match checkLengths columns data rowCount with
      | some e => .error e
      | none =>
        match checkTypes columns cts with
        | some e => .error e
        | none => (convertAll columns data cts).map (fun d => ⟨columns, d⟩)

/-- The chunk size computed by Read_csv: len(records) divided by the worker
count (runtime.NumCPU() in the source), in truncating integer division. -/
def chunkSize (n workerCount : Nat) : Nat :=
  n / workerCount

/-- The chunk-spawning loop of Read_csv, `for i := 0; i < n; i += cs`, as a
fuel-indexed iteration: each pass spawns a worker for the row-index range
[i, min (i+cs) n); none means the loop has not finished within `fuel`
passes, so a result of none for every fuel is non-termination. -/
def chunkRangesFuel (fuel i n cs : Nat) : Option (List (Nat × Nat)) :=
  if i < n then
    match fuel with
    | 0 => none
    | f + 1 => (chunkRangesFuel f (i + cs) n cs).map (fun l => (i, min (i + cs) n) :: l)
  else some []

/-- How many of the spawned ranges contain row index j. -/
def rangeCount (rs : List (Nat × Nat)) (j : Nat) : Nat :=
  (rs.filter (fun r => decide (r.1 ≤ j) && decide (j < r.2))).length

/-- The left frame of the spec's concrete join scenario. -/
def leftSample : DataFrame :=
  ⟨["ID", "Name"], [[.vint 1, .vstr "Alice"], [.vint 2, .vstr "Bob"], [.vint 3, .vstr "Charlie"]]⟩

/-- The right frame of the spec's concrete join scenario. -/
def rightSample : DataFrame :=
  ⟨["ID", "Age"], [[.vint 1, .vint 25], [.vint 2, .vint 30], [.vint 4, .vint 35]]⟩

/- Helper lemmas. -/

theorem rename_ok_eq {df df2 : DataFrame} {m : List (String × String)}
    (h : Rename df m = .ok df2) : df2 = ⟨applyRename df.Columns m, df.Data⟩ := by
  unfold Rename at h
  split at h
  · exact absurd h (by simp)
  · split at h
    · exact absurd h (by simp)
    · exact absurd h (by simp)
    · simp only [Except.ok.injEq] at h
      exact h.symm

theorem applyRename_nodup (m : List (String × String)) :
    ∀ cols : List String, cols.Nodup → (m.map Prod.snd).Nodup →
      (∀ v ∈ m.map Prod.snd, v ∉ cols) → (applyRename cols m).Nodup := by
  induction m with
  | nil => intro cols h _ _; simpa [applyRename] using h
  | cons kv m ih =>
    intro cols hnd hvals hfresh
    obtain ⟨k, v⟩ := kv
    have hv : v ∉ cols := hfresh v (by simp)
    have hvals2 : (v :: m.map Prod.snd).Nodup := by simpa using hvals
    have hstep : applyRename cols ((k, v) :: m) = applyRename (renamePair cols (k, v)) m := rfl
    rw [hstep]
    apply ih
    · refine hnd.map_on ?_
      intro x hx y hy hxy
      simp only [renamePair] at hxy
      by_cases hxk : x = k <;> by_cases hyk : y = k
      · rw [hxk, hyk]
      · rw [if_pos hxk, if_neg hyk] at hxy
        exfalso; apply hv; rw [hxy]; exact hy
      · rw [if_neg hxk, if_pos hyk] at hxy
        exfalso; apply hv; rw [← hxy]; exact hx
      · rwa [if_neg hxk, if_neg hyk] at hxy
    · exact hvals2.of_cons
    · intro w hw hmem
      have hwv : w ≠ v := by
        intro h
        exact (List.nodup_cons.mp hvals2).1 (h ▸ hw)
      have hwcols : w ∉ cols := hfresh w (by simp [hw])
      obtain ⟨c, hc, hfc⟩ := List.mem_map.mp hmem
      by_cases hck : c = k
      · rw [if_pos hck] at hfc
        exact hwv hfc.symm
      · rw [if_neg hck] at hfc
        exact hwcols (hfc ▸ hc)

theorem convertAll_cons_ok {c0 : String} {cs : List String} {col0 : List Val}
    {ds : List (List Val)} {cts : List (String × TypeTag)} {out : List (List Val)} :
    convertAll (c0 :: cs) (col0 :: ds) cts = .ok out ↔
      ∃ col2 rest,
        (match cts.lookup c0 with
         | some tag => convertColumn tag c0 col0
         | none => .ok col0 : Except String (List Val)) = .ok col2
        ∧ convertAll cs ds cts = .ok rest ∧ out = col2 :: rest := by
  constructor
  · intro h
    simp only [convertAll] at h
    split at h
    · exact absurd h (by simp)
    · rename_i col2 hcol2
      split at h
      · exact absurd h (by simp)
      · rename_i rest hrest
        simp only [Except.ok.injEq] at h
        exact ⟨col2, rest, hcol2, hrest, h.symm⟩
  · rintro ⟨col2, rest, h1, h2, rfl⟩
    simp only [convertAll, h1, h2]

/- Claim theorems. -/

/-- C1: in the concrete scenario left = (ID:[1,2,3], Name:[Alice,Bob,Charlie]),
right = (ID:[1,2,4], Age:[25,30,35]) joined on ID, the code's right merge
returns (1,Alice,25), (2,Bob,30), (nil,nil,35) and its full merge appends
(nil,nil,35) after the left-merge rows: the unmatched right row's join-key
value 4 does NOT appear in the output row, contradicting the claimed row
(4,null,35) (which is also what the repository's own Merge doc example and
TestDataFrameMerge expect). -/
theorem merge_right_full_scenario_code_eval :
    Merge (some leftSample) (some rightSample) "ID" RightMerge
      = (some ⟨["ID", "Name", "Age"],
          [[.vint 1, .vstr "Alice", .vint 25], [.vint 2, .vstr "Bob", .vint 30],
           [.vnull, .vnull, .vint 35]]⟩, none)
    ∧ Merge (some leftSample) (some rightSample) "ID" FullMerge
      = (some ⟨["ID", "Name", "Age"],
          [[.vint 1, .vstr "Alice", .vint 25], [.vint 2, .vstr "Bob", .vint 30],
           [.vint 3, .vstr "Charlie", .vnull], [.vnull, .vnull, .vint 35]]⟩, none)
    ∧ ([Val.vnull, Val.vnull, Val.vint 35] ≠ [Val.vint 4, Val.vnull, Val.vint 35]) := by
  refine ⟨rfl, rfl, by decide⟩

/-- C2: Rename is atomic: for every table and every non-empty rename map
referencing at least one column name absent from the table, Rename returns
an error (the generic columns-not-present message: the size check of Compare
fires first, so the specific-key branch is unreachable) and the observable
state of the table afterward is exactly the original table. -/
theorem rename_atomic_on_absent_key (df : DataFrame) (m : List (String × String)) (k : String)
    (hne : m ≠ []) (hk : k ∈ m.map Prod.fst) (habs : k ∉ df.Columns) :
    Rename df m
      = .error "the columns specified in 'columns' parameter is not present in the the DataFrame"
    ∧ renameRun df m = df := by
  have hkeys : k ∈ GetMapKeys m := by
    unfold GetMapKeys
    rw [collection.mem_foldl_addD]
    exact Or.inr hk
  have hlt : (collection.Intersect (GetMapKeys m) (collection.ToSet df.Columns)).length
      < (GetMapKeys m).length := by
    unfold collection.Intersect
    rw [List.length_filter_lt_length_iff_exists]
    exact ⟨k, hkeys, by simp [collection.mem_ToSet, habs]⟩
  have hcmp : collection.Compare (GetMapKeys m)
      (collection.Intersect (GetMapKeys m) (collection.ToSet df.Columns)) = (false, none) := by
    unfold collection.Compare
    rw [if_pos (by omega)]
  have hren : Rename df m
      = .error "the columns specified in 'columns' parameter is not present in the the DataFrame" := by
    unfold Rename
    rw [if_neg (fun h => hne (List.length_eq_zero.mp h))]
    rw [hcmp]
  refine ⟨hren, ?_⟩
  unfold renameRun
  rw [hren]

/-- Witness for C2 at a concrete table and rename map. -/
theorem rename_atomic_on_absent_key_witness :
    (([("B", "C")] : List (String × String)) ≠ []
      ∧ "B" ∈ ([("B", "C")] : List (String × String)).map Prod.fst
      ∧ "B" ∉ (⟨["A"], [[Val.vint 1]]⟩ : DataFrame).Columns)
    ∧ (Rename ⟨["A"], [[Val.vint 1]]⟩ [("B", "C")]
        = .error "the columns specified in 'columns' parameter is not present in the the DataFrame"
      ∧ renameRun ⟨["A"], [[Val.vint 1]]⟩ [("B", "C")] = ⟨["A"], [[Val.vint 1]]⟩) :=
  ⟨⟨by decide, by decide, by decide⟩,
    rename_atomic_on_absent_key ⟨["A"], [[Val.vint 1]]⟩ [("B", "C")] "B"
      (by decide) (by decide) (by decide)⟩

/-- C6 counterexample: the uniqueness invariant is NOT preserved by every
successful Rename: the map (A↦X, B↦X) is accepted on a table with unique
columns [A, B] (both keys are present), yet the resulting column-name
sequence [X, X] contains a duplicate. -/
theorem rename_uniqueness_counterexample :
    Rename ⟨["A", "B"], [[Val.vint 1, Val.vint 2]]⟩ [("A", "X"), ("B", "X")]
      = .ok ⟨["X", "X"], [[Val.vint 1, Val.vint 2]]⟩
    ∧ (["A", "B"] : List String).Nodup
    ∧ ¬ (["X", "X"] : List String).Nodup := by
  refine ⟨rfl, by decide, by decide⟩

/-- C6 amended: a successful Rename preserves the uniqueness of the
column-name sequence provided the rename map's new names are pairwise
distinct and distinct from every existing column name. -/
theorem rename_preserves_nodup_amended (df : DataFrame) (m : List (String × String))
    (df2 : DataFrame) (hnd : df.Columns.Nodup) (hvals : (m.map Prod.snd).Nodup)
    (hfresh : ∀ v ∈ m.map Prod.snd, v ∉ df.Columns)
    (hok : Rename df m = .ok df2) : df2.Columns.Nodup := by
  rw [rename_ok_eq hok]
  exact applyRename_nodup m df.Columns hnd hvals hfresh

/-- Witness for the amended C6 at a concrete table and rename map. -/
theorem rename_preserves_nodup_amended_witness :
    (⟨["A", "B"], []⟩ : DataFrame).Columns.Nodup
    ∧ (([("A", "X"), ("B", "Y")] : List (String × String)).map Prod.snd).Nodup
    ∧ (∀ v ∈ ([("A", "X"), ("B", "Y")] : List (String × String)).map Prod.snd,
        v ∉ (⟨["A", "B"], []⟩ : DataFrame).Columns)
    ∧ Rename ⟨["A", "B"], []⟩ [("A", "X"), ("B", "Y")] = .ok ⟨["X", "Y"], []⟩
    ∧ (⟨["X", "Y"], []⟩ : DataFrame).Columns.Nodup :=
  ⟨by decide, by decide, by decide, rfl,
    rename_preserves_nodup_amended ⟨["A", "B"], []⟩ [("A", "X"), ("B", "Y")] ⟨["X", "Y"], []⟩
      (by decide) (by decide) (by decide) rfl⟩

/-- C7: the Merge call leaves both input frames exactly as they were (the
method body writes only freshly allocated locals), and no call ever returns
both a table and an error: every error site returns a nil table. -/
theorem merge_no_mutation_and_error_excludes_table
    (df other : Option DataFrame) (onCol how : String) :
    (MergeCall (df, other) onCol how).1 = (df, other)
    ∧ ((Merge df other onCol how).1 = none ∨ (Merge df other onCol how).2 = none) := by
  refine ⟨rfl, ?_⟩
  unfold Merge
  cases df with
  | none => simp
  | some d =>
    cases other with
    | none => simp
    | some o =>
      cases h1 : findColIdx d.Columns onCol with
      | none => simp [h1]
      | some i1 =>
        cases h2 : findColIdx o.Columns onCol with
        | none => simp [h1, h2]
        | some i2 =>
          simp only [h1, h2]
          split_ifs <;> simp

/-- C9: the set algebra laws: Union is commutative and idempotent under the
set equality judged by Compare, Intersect is contained in both arguments,
Difference is disjoint from its second argument, and ToSet of ToSlice of a
set compares equal to the set; ToSet deduplicates an arbitrary input
sequence.  The Nodup hypotheses are the Set invariant (a Go map cannot hold
a key twice). -/
theorem set_algebra_laws {T : Type} [DecidableEq T] (A B S : List T)
    (hA : A.Nodup) (hB : B.Nodup) (hS : S.Nodup) :
    collection.Compare (collection.Union A B) (collection.Union B A) = (true, none)
    ∧ collection.Compare (collection.Union A A) A = (true, none)
    ∧ (∀ x ∈ collection.Intersect A B, x ∈ A ∧ x ∈ B)
    ∧ (∀ x ∈ collection.Difference A B, x ∉ B)
    ∧ collection.Compare (collection.ToSet (collection.ToSlice S)) S = (true, none)
    ∧ (∀ l : List T, (collection.ToSet l).Nodup ∧ ∀ x, x ∈ collection.ToSet l ↔ x ∈ l) := by
  have hBmem : ∀ x ∈ collection.Difference A B, x ∉ B := by
    intro x hx
    unfold collection.Difference at hx
    have := List.mem_filter.mp hx
    simpa using this.2
  refine ⟨?_, ?_, ?_, hBmem, ?_, ?_⟩
  · exact collection.Compare_eq_true (collection.nodup_Union A B) (collection.nodup_Union B A)
      (fun v => by simp [collection.mem_Union, or_comm])
  · exact collection.Compare_eq_true (collection.nodup_Union A A) hA
      (fun v => by simp [collection.mem_Union])
  · intro x hx
    unfold collection.Intersect at hx
    have := List.mem_filter.mp hx
    exact ⟨this.1, by simpa using this.2⟩
  · exact collection.Compare_eq_true (collection.nodup_ToSet _) hS
      (fun v => by simp [collection.mem_ToSet, collection.ToSlice])
  · exact fun l => ⟨collection.nodup_ToSet l, fun x => collection.mem_ToSet⟩

/-- Witness for C9 on concrete sets of naturals. -/
theorem set_algebra_laws_witness :
    (([1, 2] : List Nat).Nodup ∧ ([2, 3] : List Nat).Nodup ∧ ([4] : List Nat).Nodup)
    ∧ (collection.Compare (collection.Union [1, 2] [2, 3]) (collection.Union [2, 3] [1, 2])
        = (true, none)
      ∧ collection.Compare (collection.Union [1, 2] [1, 2]) [1, 2] = (true, none)
      ∧ (∀ x ∈ collection.Intersect [1, 2] [2, 3], x ∈ ([1, 2] : List Nat) ∧ x ∈ [2, 3])
      ∧ (∀ x ∈ collection.Difference [1, 2] [2, 3], x ∉ ([2, 3] : List Nat))
      ∧ collection.Compare (collection.ToSet (collection.ToSlice [4])) [4] = (true, none)
      ∧ (∀ l : List Nat, (collection.ToSet l).Nodup ∧ ∀ x, x ∈ collection.ToSet l ↔ x ∈ l)) :=
  ⟨⟨by decide, by decide, by decide⟩,
    set_algebra_laws [1, 2] [2, 3] [4] (by decide) (by decide) (by decide)⟩

/-- C8: a column whose declared type tag is not one of the four recognized
column types is a pass-through: every cell is accepted unchanged (the switch
default), a whole such column converts to itself with no possibility of a
per-cell mismatch error, and in any mixed frame accepted by the constructor
a pass-through column's output equals its input. -/
theorem unrecognized_tag_passthrough :
    (∀ (name : String) (v : Val), convertCell TypeTag.otherTag name v = .ok v)
    ∧ (∀ (name : String) (col : List Val), convertColumn TypeTag.otherTag name col = .ok col)
    ∧ (∀ (cols : List String) (data out : List (List Val)) (cts : List (String × TypeTag))
        (i : Nat) (c : String) (col : List Val),
        convertAll cols data cts = .ok out → cols[i]? = some c → data[i]? = some col →
        cts.lookup c = some TypeTag.otherTag → out[i]? = some col) := by
  have hcell : ∀ (name : String) (v : Val), convertCell TypeTag.otherTag name v = .ok v :=
    fun _ _ => rfl
  have hcol : ∀ (name : String) (col : List Val),
      convertColumn TypeTag.otherTag name col = .ok col := by
    intro name col
    induction col with
    | nil => rfl
    | cons v vs ih => simp [convertColumn, hcell, ih]
  refine ⟨hcell, hcol, ?_⟩
  intro cols
  induction cols with
  | nil => intro data out cts i c col _ hc; simp at hc
  | cons c0 cs ih =>
    intro data out cts i c col hconv hc hd hlook
    cases data with
    | nil => simp at hd
    | cons col0 ds =>
      obtain ⟨col2, rest, hcol2, hrest, rfl⟩ := convertAll_cons_ok.mp hconv
      cases i with
      | zero =>
        simp only [List.getElem?_cons_zero, Option.some.injEq] at hc hd
        subst hc
        subst hd
        rw [hlook] at hcol2
        simp only [hcol c0 col0, Except.ok.injEq] at hcol2
        simp [hcol2]
      | succ j =>
        simp only [List.getElem?_cons_succ] at hc hd
        simpa using ih ds rest cts j c col hrest hc hd hlook

/-- Witness for C8 on a mixed two-column frame whose first column has an
unrecognized tag and whose second is a recognized integer column. -/
theorem unrecognized_tag_passthrough_witness :
    convertCell TypeTag.otherTag "A" (Val.vstr "x") = .ok (Val.vstr "x")
    ∧ convertColumn TypeTag.otherTag "A" [Val.vstr "x", Val.vnull] = .ok [Val.vstr "x", Val.vnull]
    ∧ (convertAll ["A", "B"] [[Val.vstr "x"], [Val.vint 1]]
        [("A", TypeTag.otherTag), ("B", TypeTag.intTag)]
        = .ok [[Val.vstr "x"], [Val.vIntCol [1]]]
      ∧ ([[Val.vstr "x"], [Val.vIntCol [1]]] : List (List Val))[0]? = some [Val.vstr "x"]) :=
  ⟨unrecognized_tag_passthrough.1 "A" (Val.vstr "x"),
    unrecognized_tag_passthrough.2.1 "A" [Val.vstr "x", Val.vnull],
    rfl,
    unrecognized_tag_passthrough.2.2 ["A", "B"] [[Val.vstr "x"], [Val.vint 1]]
      [[Val.vstr "x"], [Val.vIntCol [1]]] [("A", TypeTag.otherTag), ("B", TypeTag.intTag)]
      0 "A" [Val.vstr "x"] rfl rfl rfl rfl⟩

/-- C10: a cell of a column declared with one of the four recognized column
types is stored wrapped as a one-element typed slice, never as the scalar
that was passed in (the wrapped value has a different dynamic type, so it is
never equal to the input); a cell of an unrecognized-tag column is stored as
the raw input value. -/
theorem typed_cell_wrapped_never_scalar (name : String) :
    (∀ v w, convertCell TypeTag.floatTag name v = .ok w → w ≠ v)
    ∧ (∀ v w, convertCell TypeTag.intTag name v = .ok w → w ≠ v)
    ∧ (∀ v w, convertCell TypeTag.stringTag name v = .ok w → w ≠ v)
    ∧ (∀ v w, convertCell TypeTag.boolTag name v = .ok w → w ≠ v)
    ∧ (∀ b, convertCell TypeTag.floatTag name (.vfloat b) = .ok (.vFloatCol [b]))
    ∧ (∀ n, convertCell TypeTag.intTag name (.vint n) = .ok (.vIntCol [n]))
    ∧ (∀ s, convertCell TypeTag.stringTag name (.vstr s) = .ok (.vStrCol [s]))
    ∧ (∀ b, convertCell TypeTag.boolTag name (.vbool b) = .ok (.vBoolCol [b]))
    ∧ (∀ v, convertCell TypeTag.otherTag name v = .ok v) := by
  refine ⟨?_, ?_, ?_, ?_, fun _ => rfl, fun _ => rfl, fun _ => rfl, fun _ => rfl, fun _ => rfl⟩
  all_goals intro v w h
  all_goals cases v <;> simp [convertCell] at h <;> simp [← h]

/-- Witness for C10: a float64 scalar is stored as the one-element
FloatColumn slice, which differs from the scalar itself. -/
theorem typed_cell_wrapped_never_scalar_witness :
    convertCell TypeTag.floatTag "A" (Val.vfloat 3) = .ok (Val.vFloatCol [3])
    ∧ Val.vFloatCol [3] ≠ Val.vfloat 3 :=
  ⟨(typed_cell_wrapped_never_scalar "A").2.2.2.2.1 3,
    (typed_cell_wrapped_never_scalar "A").1 (Val.vfloat 3) (Val.vFloatCol [3]) rfl⟩

theorem checkLengths_none (rc : Nat) :
    ∀ (cols : List String) (data : List (List Val)),
      (∀ col ∈ data, col.length = rc) → checkLengths cols data rc = none := by
  intro cols
  induction cols with
  | nil => intro data _; cases data <;> rfl
  | cons c cs ih =>
    intro data hall
    cases data with
    | nil => rfl
    | cons col ds =>
      have h0 : col.length = rc := hall col (by simp)
      simp only [checkLengths]
      rw [if_neg (by omega)]
      exact ih ds (fun x hx => hall x (by simp [hx]))

theorem checkLengths_some (rc : Nat) :
    ∀ (cols : List String) (data : List (List Val)),
      cols.length = data.length → (∃ col ∈ data, col.length ≠ rc) →
      ∃ name got, name ∈ cols ∧ got ≠ rc ∧
        checkLengths cols data rc = some ("inconsistent row count in column " ++ name
          ++ ": expected " ++ toString rc ++ ", got " ++ toString got) := by
  intro cols
  induction cols with
  | nil =>
    intro data hlen hbad
    obtain ⟨col, hcol, _⟩ := hbad
    cases data with
    | nil => simp at hcol
    | cons a b => simp at hlen
  | cons c cs ih =>
    intro data hlen hbad
    cases data with
    | nil => obtain ⟨col, hcol, _⟩ := hbad; simp at hcol
    | cons col ds =>
      by_cases h0 : col.length = rc
      · obtain ⟨bad, hbad1, hbad2⟩ := hbad
        have hbd : bad ∈ ds := by
          rcases List.mem_cons.mp hbad1 with h | h
          · exact absurd (h ▸ h0) hbad2
          · exact h
        obtain ⟨name, got, hn, hg, hck⟩ := ih ds (by simpa using hlen) ⟨bad, hbd, hbad2⟩
        refine ⟨name, got, by simp [hn], hg, ?_⟩
        simp only [checkLengths]
        rw [if_neg (by omega)]
        exact hck
      · refine ⟨c, col.length, by simp, h0, ?_⟩
        simp only [checkLengths]
        rw [if_pos (by omega)]

/-- C4 counterexample: the claim's premises (types cover every column,
non-empty names, all column arrays share one length) do not suffice for
Construct to succeed: a covered column whose cells fail the declared type's
per-cell validation is rejected, and so is a frame whose name count differs
from its data-column count. -/
theorem construct_claim_counterexample :
    ((∀ c ∈ (["A"] : List String), (([("A", TypeTag.floatTag)]).lookup c).isSome)
      ∧ (["A"] : List String) ≠ []
      ∧ (∀ col ∈ [[Val.vstr "x"]], col.length = 1)
      ∧ DataFrameCtor ["A"] [[Val.vstr "x"]] (some [("A", TypeTag.floatTag)])
          = .error "type mismatch for column A: expected FloatColumn, got string")
    ∧ ((∀ c ∈ (["A"] : List String), (([("A", TypeTag.otherTag)]).lookup c).isSome)
      ∧ (["A"] : List String) ≠ []
      ∧ (∀ col ∈ [[Val.vint 1], [Val.vint 2]], col.length = 1)
      ∧ DataFrameCtor ["A"] [[Val.vint 1], [Val.vint 2]] (some [("A", TypeTag.otherTag)])
          = .error "number of columns must match number of data columns") := by
  exact ⟨⟨by decide, by decide, by decide, rfl⟩, ⟨by decide, by decide, by decide, rfl⟩⟩

/-- C4 amended: with the further premises the source validates — the
name/data column counts match and the per-cell type validation passes —
the constructor succeeds; and whenever the counts match and some column's
length differs from the first column's, it fails with the error naming the
offending column and both lengths. -/
theorem construct_amended :
    (∀ (cols : List String) (data : List (List Val)) (cts : List (String × TypeTag))
        (d : List (List Val)),
      cols ≠ [] → data ≠ [] → cols.length = data.length →
      (∀ col ∈ data, col.length = (data.headD []).length) →
      checkTypes cols cts = none → convertAll cols data cts = .ok d →
      DataFrameCtor cols data (some cts) = .ok ⟨cols, d⟩)
    ∧ (∀ (cols : List String) (data : List (List Val)) (cts : List (String × TypeTag)),
      data ≠ [] → cols.length = data.length →
      (∃ col ∈ data, col.length ≠ (data.headD []).length) →
      ∃ name got, name ∈ cols ∧ got ≠ (data.headD []).length ∧
        DataFrameCtor cols data (some cts)
          = .error ("inconsistent row count in column " ++ name ++ ": expected "
            ++ toString (data.headD []).length ++ ", got " ++ toString got)) := by
  constructor
  · intro cols data cts d h1 h2 h3 h4 h5 h6
    simp only [DataFrameCtor]
    rw [if_neg (by simpa [List.length_eq_zero] using h1)]
    rw [if_neg (by simpa [List.length_eq_zero] using h2)]
    rw [if_neg (by omega)]
    rw [checkLengths_none _ cols data h4, h5, h6]
    rfl
  · intro cols data cts h2 h3 hbad
    have h1 : cols ≠ [] := by
      intro h
      subst h
      simp at h3
      exact h2 (List.length_eq_zero.mp h3.symm)
    obtain ⟨name, got, hn, hg, hck⟩ := checkLengths_some (data.headD []).length cols data h3 hbad
    refine ⟨name, got, hn, hg, ?_⟩
    simp only [DataFrameCtor]
    rw [if_neg (by simpa [List.length_eq_zero] using h1)]
    rw [if_neg (by simpa [List.length_eq_zero] using h2)]
    rw [if_neg (by omega)]
    rw [hck]

/-- Witness for the amended C4: a well-typed one-column frame is accepted,
and a two-column frame with a short second column is rejected with the
error naming column B and both lengths. -/
theorem construct_amended_witness :
    DataFrameCtor ["A"] [[Val.vfloat 5]] (some [("A", TypeTag.floatTag)])
      = .ok ⟨["A"], [[Val.vFloatCol [5]]]⟩
    ∧ ∃ name got, name ∈ (["A", "B"] : List String)
      ∧ got ≠ (([[Val.vint 1], [Val.vint 2, Val.vint 3]] : List (List Val)).headD []).length
      ∧ DataFrameCtor ["A", "B"] [[Val.vint 1], [Val.vint 2, Val.vint 3]]
          (some [("A", TypeTag.intTag), ("B", TypeTag.intTag)])
        = .error ("inconsistent row count in column " ++ name ++ ": expected "
          ++ toString (([[Val.vint 1], [Val.vint 2, Val.vint 3]] : List (List Val)).headD []).length
          ++ ", got " ++ toString got) :=
  ⟨construct_amended.1 ["A"] [[Val.vfloat 5]] [("A", TypeTag.floatTag)] [[Val.vFloatCol [5]]]
      (by decide) (by decide) (by decide) (by decide) (by decide) rfl,
    construct_amended.2 ["A", "B"] [[Val.vint 1], [Val.vint 2, Val.vint 3]]
      [("A", TypeTag.intTag), ("B", TypeTag.intTag)] (by decide) (by decide)
      ⟨[Val.vint 2, Val.vint 3], by decide, by decide⟩⟩

theorem rangeCount_cons (a b j : Nat) (rs : List (Nat × Nat)) :
    rangeCount ((a, b) :: rs) j = (if a ≤ j ∧ j < b then 1 else 0) + rangeCount rs j := by
  unfold rangeCount
  rw [List.filter_cons]
  by_cases h1 : a ≤ j <;> by_cases h2 : j < b <;>
    simp [h1, h2, Nat.add_comm]

theorem chunkRanges_cover (cs : Nat) (hcs : 1 ≤ cs) :
    ∀ (fuel i n : Nat), n ≤ i + fuel →
      ∃ rs, chunkRangesFuel fuel i n cs = some rs
        ∧ ∀ j, rangeCount rs j = if i ≤ j ∧ j < n then 1 else 0 := by
  intro fuel
  induction fuel with
  | zero =>
    intro i n h
    refine ⟨[], ?_, ?_⟩
    · unfold chunkRangesFuel
      rw [if_neg (by omega)]
    · intro j
      rw [if_neg (by omega)]
      rfl
  | succ f ih =>
    intro i n h
    by_cases hin : i < n
    · obtain ⟨rs, hrs, hcount⟩ := ih (i + cs) n (by omega)
      refine ⟨(i, min (i + cs) n) :: rs, ?_, ?_⟩
      · unfold chunkRangesFuel
        rw [if_pos hin]
        show (chunkRangesFuel f (i + cs) n cs).map (fun l => (i, min (i + cs) n) :: l) = _
        rw [hrs]
        rfl
      · intro j
        rw [rangeCount_cons, hcount j]
        split_ifs <;> omega
    · refine ⟨[], ?_, ?_⟩
      · unfold chunkRangesFuel
        rw [if_neg hin]
      · intro j
        rw [if_neg (by omega)]
        rfl

/-- C5: the chunk-spawning loop of Read_csv does not satisfy the claim as a
whole, because the chunk size n / workerCount can be zero: with one body row
and two workers the loop `for i := 0; i < n; i += chunkSize` never advances
and never terminates (first conjunct: no amount of fuel finishes it).  For
every chunk size ≥ 1 — that is, workerCount ≤ row count — the loop does
terminate and its ranges cover every row index exactly once and no other
index (second conjunct), which is the coverage half of the claim. -/
theorem read_csv_chunk_loop :
    (∀ fuel, chunkRangesFuel fuel 0 1 (chunkSize 1 2) = none)
    ∧ (∀ n cs, 1 ≤ cs → ∃ rs, chunkRangesFuel n 0 n cs = some rs
        ∧ ∀ j, rangeCount rs j = if j < n then 1 else 0) := by
  constructor
  · intro fuel
    induction fuel with
    | zero => rfl
    | succ f ih =>
      show (chunkRangesFuel f (0 + 0) 1 0).map _ = none
      rw [Nat.add_zero]
      rw [show chunkSize 1 2 = 0 from rfl] at ih
      rw [ih]
      rfl
  · intro n cs hcs
    obtain ⟨rs, hrs, hcount⟩ := chunkRanges_cover cs hcs n 0 n (by omega)
    refine ⟨rs, hrs, fun j => ?_⟩
    rw [hcount j]
    split_ifs <;> omega

/-- Witness for C5's universally quantified parts at concrete inputs. -/
theorem read_csv_chunk_loop_witness :
    chunkRangesFuel 40 0 1 (chunkSize 1 2) = none
    ∧ ∃ rs, chunkRangesFuel 7 0 7 3 = some rs
        ∧ ∀ j, rangeCount rs j = if j < 7 then 1 else 0 :=
  ⟨read_csv_chunk_loop.1 40, read_csv_chunk_loop.2 7 3 (by decide)⟩

theorem matchesOf_length (rows : List (List Val)) (idx : Nat) (key : Val) :
    (matchesOf rows idx key).length = matchCount rows idx key := rfl

theorem matchesOf_isEmpty_iff (rows : List (List Val)) (idx : Nat) (key : Val) :
    (matchesOf rows idx key).isEmpty = true ↔ matchCount rows idx key = 0 := by
  rw [List.isEmpty_iff, ← matchesOf_length, List.length_eq_zero]

theorem matchCount_cons (r : List Val) (d : List (List Val)) (i : Nat) (key : Val) :
    matchCount (r :: d) i key
      = (if r.getD i Val.vnull = key then 1 else 0) + matchCount d i key := by
  unfold matchCount
  rw [List.filter_cons]
  by_cases h : r.getD i Val.vnull = key
  · rw [if_pos (decide_eq_true h), if_pos h, List.length_cons]
    omega
  · rw [if_neg (by rw [decide_eq_true_eq]; exact h), if_neg h]
    omega

theorem innerCount_cons (r : List Val) (d1 d2 : List (List Val)) (i1 i2 : Nat) :
    innerCount (r :: d1) d2 i1 i2
      = matchCount d2 i2 (r.getD i1 Val.vnull) + innerCount d1 d2 i1 i2 := rfl

theorem unmatchedLeftCount_cons (r : List Val) (d1 d2 : List (List Val)) (i1 i2 : Nat) :
    unmatchedLeftCount (r :: d1) d2 i1 i2
      = (if matchCount d2 i2 (r.getD i1 Val.vnull) = 0 then 1 else 0)
        + unmatchedLeftCount d1 d2 i1 i2 := by
  unfold unmatchedLeftCount
  rw [List.filter_cons]
  by_cases h : matchCount d2 i2 (r.getD i1 Val.vnull) = 0
  · rw [if_pos (decide_eq_true h), if_pos h, List.length_cons]
    omega
  · rw [if_neg (by rw [decide_eq_true_eq]; exact h), if_neg h]
    omega

theorem unmatchedRightCount_cons (r2 : List Val) (d1 d2 : List (List Val)) (i1 i2 : Nat) :
    unmatchedRightCount d1 (r2 :: d2) i1 i2
      = (if matchCount d1 i1 (r2.getD i2 Val.vnull) = 0 then 1 else 0)
        + unmatchedRightCount d1 d2 i1 i2 := by
  unfold unmatchedRightCount
  rw [List.filter_cons]
  by_cases h : matchCount d1 i1 (r2.getD i2 Val.vnull) = 0
  · rw [if_pos (decide_eq_true h), if_pos h, List.length_cons]
    omega
  · rw [if_neg (by rw [decide_eq_true_eq]; exact h), if_neg h]
    omega

theorem length_performInnerMerge (d1 d2 : List (List Val)) (i1 i2 : Nat) :
    (performInnerMerge d1 d2 i1 i2).length = innerCount d1 d2 i1 i2 := by
  unfold performInnerMerge innerCount
  rw [List.length_flatMap]
  congr 1
  refine List.map_congr_left ?_
  intro r1 _
  show ((matchesOf d2 i2 (r1.getD i1 Val.vnull)).map (fun row2 => r1 ++ row2.eraseIdx i2)).length
    = matchCount d2 i2 (r1.getD i1 Val.vnull)
  rw [List.length_map, matchesOf_length]

theorem length_performLeftMerge (d2 : List (List Val)) (i1 i2 c2 : Nat) :
    ∀ d1, (performLeftMerge d1 d2 i1 i2 c2).length
      = innerCount d1 d2 i1 i2 + unmatchedLeftCount d1 d2 i1 i2 := by
  intro d1
  induction d1 with
  | nil => rfl
  | cons r d1 ih =>
    have hstep : performLeftMerge (r :: d1) d2 i1 i2 c2
        = (if (matchesOf d2 i2 (r.getD i1 Val.vnull)).isEmpty
             then [r ++ List.replicate (c2 - 1) Val.vnull]
             else (matchesOf d2 i2 (r.getD i1 Val.vnull)).map (fun row2 => r ++ row2.eraseIdx i2))
          ++ performLeftMerge d1 d2 i1 i2 c2 := by
      simp only [performLeftMerge, List.flatMap_cons]
    rw [hstep, List.length_append, ih, innerCount_cons, unmatchedLeftCount_cons]
    by_cases h : matchCount d2 i2 (r.getD i1 Val.vnull) = 0
    · rw [if_pos ((matchesOf_isEmpty_iff _ _ _).mpr h), if_pos h]
      simp only [List.length_cons, List.length_nil]
      omega
    · rw [if_neg (fun hh => h ((matchesOf_isEmpty_iff _ _ _).mp hh)), if_neg h,
        List.length_map, matchesOf_length]
      omega

theorem length_performRightMerge (d1 : List (List Val)) (i1 i2 c1 : Nat) :
    ∀ d2, (performRightMerge d1 d2 i1 i2 c1).length
      = (d2.map (fun r2 => matchCount d1 i1 (r2.getD i2 Val.vnull))).sum
        + unmatchedRightCount d1 d2 i1 i2 := by
  intro d2
  induction d2 with
  | nil => rfl
  | cons r2 d2 ih =>
    have hstep : performRightMerge d1 (r2 :: d2) i1 i2 c1
        = (if (matchesOf d1 i1 (r2.getD i2 Val.vnull)).isEmpty
             then [List.replicate c1 Val.vnull ++ r2.eraseIdx i2]
             else (matchesOf d1 i1 (r2.getD i2 Val.vnull)).map (fun row1 => row1 ++ r2.eraseIdx i2))
          ++ performRightMerge d1 d2 i1 i2 c1 := by
      simp only [performRightMerge, List.flatMap_cons]
    rw [hstep, List.length_append, ih, List.map_cons, List.sum_cons, unmatchedRightCount_cons]
    by_cases h : matchCount d1 i1 (r2.getD i2 Val.vnull) = 0
    · rw [if_pos ((matchesOf_isEmpty_iff _ _ _).mpr h), if_pos h]
      simp only [List.length_cons, List.length_nil]
      omega
    · rw [if_neg (fun hh => h ((matchesOf_isEmpty_iff _ _ _).mp hh)), if_neg h,
        List.length_map, matchesOf_length]
      omega

theorem sum_indicator_matchCount (i2 : Nat) (key : Val) :
    ∀ d2 : List (List Val),
      (d2.map (fun r2 => if key = r2.getD i2 Val.vnull then 1 else 0)).sum
        = matchCount d2 i2 key := by
  intro d2
  induction d2 with
  | nil => rfl
  | cons r2 d2 ih =>
    rw [List.map_cons, List.sum_cons, ih, matchCount_cons]
    by_cases h : key = r2.getD i2 Val.vnull
    · rw [if_pos h, if_pos h.symm]
    · rw [if_neg h, if_neg (fun hh => h hh.symm)]

/-- The double-counting identity behind the right-merge law: summing right
matches over the left rows equals summing left matches over the right rows,
both counting the matching row pairs. -/
theorem innerCount_comm (d2 : List (List Val)) (i1 i2 : Nat) :
    ∀ d1, innerCount d1 d2 i1 i2
      = (d2.map (fun r2 => matchCount d1 i1 (r2.getD i2 Val.vnull))).sum := by
  intro d1
  induction d1 with
  | nil =>
    refine Eq.symm (List.sum_eq_zero ?_)
    intro x hx
    obtain ⟨r2, _, rfl⟩ := List.mem_map.mp hx
    rfl
  | cons r d1 ih =>
    rw [innerCount_cons, ih]
    have hpt : (d2.map (fun r2 => matchCount (r :: d1) i1 (r2.getD i2 Val.vnull))).sum
        = (d2.map (fun r2 => (if r.getD i1 Val.vnull = r2.getD i2 Val.vnull then 1 else 0)
            + matchCount d1 i1 (r2.getD i2 Val.vnull))).sum := by
      congr 1
      exact List.map_congr_left (fun r2 _ => matchCount_cons r d1 i1 (r2.getD i2 Val.vnull))
    rw [hpt, List.sum_map_add, ← sum_indicator_matchCount i2 (r.getD i1 Val.vnull) d2]

theorem not_any_matchCount (i1 : Nat) (key : Val) :
    ∀ d1 : List (List Val),
      (!(d1.any (fun r => decide (r.getD i1 Val.vnull = key))))
        = decide (matchCount d1 i1 key = 0) := by
  intro d1
  induction d1 with
  | nil => rfl
  | cons r d1 ih =>
    rw [List.any_cons, Bool.not_or, ih, matchCount_cons]
    by_cases h : r.getD i1 Val.vnull = key
    · rw [if_pos h, decide_eq_true h, Bool.not_true, Bool.false_and]
      exact (decide_eq_false (by omega)).symm
    · rw [if_neg h, decide_eq_false h, Bool.not_false, Bool.true_and]
      congr 1
      rw [Nat.zero_add]

theorem length_performFullMerge (d1 d2 : List (List Val)) (i1 i2 c1 c2 : Nat) :
    (performFullMerge d1 d2 i1 i2 c1 c2).length
      = (innerCount d1 d2 i1 i2 + unmatchedLeftCount d1 d2 i1 i2)
        + unmatchedRightCount d1 d2 i1 i2 := by
  unfold performFullMerge
  rw [List.length_append, length_performLeftMerge, List.length_map]
  congr 1
  unfold unmatchedRightCount
  congr 1
  exact List.filter_congr (fun r2 _ => not_any_matchCount i1 (r2.getD i2 Val.vnull) d1)

/-- C3: the join row-count laws: for tables that both contain the join
column, inner-merge output size is the sum over left rows of the number of
right rows sharing that row's key; left adds the unmatched left rows; right
adds the unmatched right rows to the inner count; full is the left count
plus the right rows whose key occurs nowhere in the left join column. -/
theorem merge_row_count_laws (lf rf : DataFrame) (onCol : String) (i1 i2 : Nat)
    (hl : findColIdx lf.Columns onCol = some i1) (hr : findColIdx rf.Columns onCol = some i2) :
    resultRowCount (Merge (some lf) (some rf) onCol InnerMerge)
        = some (innerCount lf.Data rf.Data i1 i2)
    ∧ resultRowCount (Merge (some lf) (some rf) onCol LeftMerge)
        = some (innerCount lf.Data rf.Data i1 i2 + unmatchedLeftCount lf.Data rf.Data i1 i2)
    ∧ resultRowCount (Merge (some lf) (some rf) onCol RightMerge)
        = some (innerCount lf.Data rf.Data i1 i2 + unmatchedRightCount lf.Data rf.Data i1 i2)
    ∧ resultRowCount (Merge (some lf) (some rf) onCol FullMerge)
        = some ((innerCount lf.Data rf.Data i1 i2 + unmatchedLeftCount lf.Data rf.Data i1 i2)
            + unmatchedRightCount lf.Data rf.Data i1 i2) := by
  refine ⟨?_, ?_, ?_, ?_⟩
  · simp only [Merge, hl, hr]
    rw [if_pos trivial]
    simp only [resultRowCount, Option.map_some']
    exact congrArg some (length_performInnerMerge lf.Data rf.Data i1 i2)
  · simp only [Merge, hl, hr]
    rw [if_neg (by decide), if_pos trivial]
    simp only [resultRowCount, Option.map_some']
    exact congrArg some (length_performLeftMerge rf.Data i1 i2 rf.Columns.length lf.Data)
  · simp only [Merge, hl, hr]
    rw [if_neg (by decide), if_neg (by decide), if_pos trivial]
    simp only [resultRowCount, Option.map_some']
    refine congrArg some ?_
    rw [length_performRightMerge lf.Data i1 i2 lf.Columns.length rf.Data,
      ← innerCount_comm rf.Data i1 i2 lf.Data]
  · simp only [Merge, hl, hr]
    rw [if_neg (by decide), if_neg (by decide), if_neg (by decide), if_pos trivial]
    simp only [resultRowCount, Option.map_some']
    exact congrArg some
      (length_performFullMerge lf.Data rf.Data i1 i2 lf.Columns.length rf.Columns.length)

/-- Witness for C3 on the concrete sample frames joined on ID. -/
theorem merge_row_count_laws_witness :
    (findColIdx leftSample.Columns "ID" = some 0
      ∧ findColIdx rightSample.Columns "ID" = some 0)
    ∧ (resultRowCount (Merge (some leftSample) (some rightSample) "ID" InnerMerge)
        = some (innerCount leftSample.Data rightSample.Data 0 0)
      ∧ resultRowCount (Merge (some leftSample) (some rightSample) "ID" LeftMerge)
        = some (innerCount leftSample.Data rightSample.Data 0 0
            + unmatchedLeftCount leftSample.Data rightSample.Data 0 0)
      ∧ resultRowCount (Merge (some leftSample) (some rightSample) "ID" RightMerge)
        = some (innerCount leftSample.Data rightSample.Data 0 0
            + unmatchedRightCount leftSample.Data rightSample.Data 0 0)
      ∧ resultRowCount (Merge (some leftSample) (some rightSample) "ID" FullMerge)
        = some ((innerCount leftSample.Data rightSample.Data 0 0
            + unmatchedLeftCount leftSample.Data rightSample.Data 0 0)
            + unmatchedRightCount leftSample.Data rightSample.Data 0 0)) :=
  ⟨⟨rfl, rfl⟩, merge_row_count_laws leftSample rightSample "ID" 0 0 rfl rfl⟩

end GPandas
